import Mathlib

/-!
Verification of the real-time peer mesh layer of DiscordP2PClone: a shallow
embedding of the WebSocket signaling coordinator (`registerRoutes`, the
`wss.on` handlers with `connectedUsers` / `channelPeers`) and of the
client-side `WebRTCManager` / `useWebRTC` hook from
`client/src/components/voice-controls.tsx`, together with theorems settling
the specified properties of join discovery, envelope relay, link lifecycle,
media operations and mesh completeness.

Modelling conventions:
- JavaScript `Map` objects are embedded as insertion-ordered association
  lists; `Map.set` replaces in place when the key is present and appends
  otherwise, matching iteration order of `Map.values()`.
- A WebSocket is identified by a numeric id (`wsId`); its `readyState ===
  OPEN` test is an environment parameter `wsOpen : Nat → Bool`, read at send
  time exactly where the source reads `readyState`.
- JavaScript truthiness of the optional string fields (`userId && channelId`,
  `message.to`) is `truthy`: present and non-empty.
- An `RTCPeerConnection` is a record carrying a creation counter `pcId` (so
  that replacement of a connection object is observable), its track senders,
  which session descriptions have been applied, and a connection state.
- The WebRTC transport is external to the repository; its connect success
  (`connectionState` reaching `connected`, and the answerer's `ondatachannel`
  plus the data channels opening) is modelled as happening once both the
  local and the remote description of a link have been applied, i.e. when the
  offer/answer exchange for that link completes.
-/

/-- A media track: its `kind` (\"audio\"/\"video\") and capture source. -/
structure Track where
  kind : String
  source : String
deriving DecidableEq, Repr

/-- An `RTCRtpSender`: identified per connection by `senderId`, carrying an
optional track. -/
structure Sender where
  senderId : Nat
  track : Option Track
deriving DecidableEq, Repr

/-- The `WebRTCSignal` envelope shape from the shared schema:
`{type, from?, to?, channelId?, userId?, data?}`.  The opaque `data` payload
is modelled as an optional string. -/
structure Envelope where
  etype : String
  fromId : Option String := none
  toId : Option String := none
  channelId : Option String := none
  userId : Option String := none
  payload : Option String := none
deriving DecidableEq, Repr

/-- JavaScript truthiness of an optional string field: present and non-empty. -/
def truthy : Option String → Bool
  | none => false
  | some s => decide (s ≠ "")

/-- `mGet m k`: `Map.get`, the value of the first (unique) entry with key `k`. -/
def mGet {κ α : Type} [DecidableEq κ] (m : List (κ × α)) (k : κ) : Option α :=
  (m.find? (fun c => decide (c.1 = k))).map (fun c => c.2)

/-- `mSet m k v`: `Map.set`, replacing in place when `k` is present and
appending otherwise. -/
def mSet {κ α : Type} [DecidableEq κ] (m : List (κ × α)) (k : κ) (v : α) : List (κ × α) :=
  if m.any (fun c => decide (c.1 = k)) then
    m.map (fun c => if c.1 = k then (k, v) else c)
  else
    m ++ [(k, v)]

/-- `mDel m k`: `Map.delete`. -/
def mDel {κ α : Type} [DecidableEq κ] (m : List (κ × α)) (k : κ) : List (κ × α) :=
  m.filter (fun c => decide (c.1 ≠ k))

/-- The key list of an association list. -/
def keysOf {κ α : Type} (m : List (κ × α)) : List κ :=
  m.map (fun c => c.1)

/-! ## Signaling coordinator (server/routes.ts, WebSocket section) -/

/-- Coordinator state: `connectedUsers`, a `Map` keyed by the WebSocket
object (here its numeric id) holding that socket's registered identity, and
`channelPeers`, a `Map` from channel id to the ordered member set. -/
structure ServerState where
  connectedUsers : List (Nat × String)
  channelPeers : List (String × List String)
deriving DecidableEq, Repr

/-- `Array.from(connectedUsers.values()).find(conn => conn.userId === uid)`:
the first binding in insertion order registered to `uid`. -/
def findConn (users : List (Nat × String)) (uid : String) : Option (Nat × String) :=
  users.find? (fun c => decide (c.2 = uid))

/-- `connectedUsers.set(ws, {ws, userId})`, keyed by the socket id. -/
def mapSetWs (users : List (Nat × String)) (w : Nat) (uid : String) : List (Nat × String) :=
  mSet users w uid

/-- `Set.add`: append only when absent (idempotent, insertion ordered). -/
def setAdd (s : List String) (x : String) : List String :=
  if x ∈ s then s else s ++ [x]

/-- `channelPeers.get(channelId)`. -/
def chanGet (cs : List (String × List String)) (ch : String) : Option (List String) :=
  mGet cs ch

/-- `channelPeers.set(channelId, members)` semantics used by the handler. -/
def chanSet (cs : List (String × List String)) (ch : String) (ms : List String) :
    List (String × List String) :=
  mSet cs ch ms

/-- The member set of a channel, empty when the channel is absent. -/
def membersOf (st : ServerState) (ch : String) : List String :=
  (chanGet st.channelPeers ch).getD []

/-- The `peer-joined{from, channelId}` envelope sent by the join handler. -/
def peerJoinedMsg (uid ch : String) : Envelope :=
  { etype := "peer-joined", fromId := some uid, channelId := some ch }

/-- The `peer-left{from, channelId}` envelope sent by the leave handler. -/
def peerLeftMsg (uid ch : String) : Envelope :=
  { etype := "peer-left", fromId := some uid, channelId := some ch }

/-- `ws.on('message')`: the coordinator's single envelope entry point.
Returns the new state and the list of `(target socket, envelope)` sends.
Branches exactly as the source: `join-channel`, then `leave-channel`, then
the relay branch guarded by `message.to` truthiness. -/
def handleMessage (wsOpen : Nat → Bool) (st : ServerState) (senderWs : Nat) (e : Envelope) :
    ServerState × List (Nat × Envelope) :=
  if e.etype = "join-channel" then
    if truthy e.userId && truthy e.channelId then
      let uid := e.userId.getD ""
      let ch := e.channelId.getD ""
      let users := mapSetWs st.connectedUsers senderWs uid
      let members := setAdd ((chanGet st.channelPeers ch).getD []) uid
      let outbox := members.filterMap (fun p =>
        if p = uid then none
        else
          match findConn users p with
          | some c => if wsOpen c.1 then some (c.1, peerJoinedMsg uid ch) else none
          | none => none)
      ({ connectedUsers := users, channelPeers := chanSet st.channelPeers ch members }, outbox)
    else (st, [])
  else if e.etype = "leave-channel" then
    if truthy e.userId && truthy e.channelId
        && (chanGet st.channelPeers (e.channelId.getD "")).isSome then
      let uid := e.userId.getD ""
      let ch := e.channelId.getD ""
      let members := ((chanGet st.channelPeers ch).getD []).filter (fun p => decide (p ≠ uid))
      let outbox := members.filterMap (fun p =>
        match findConn st.connectedUsers p with
        | some c => if wsOpen c.1 then some (c.1, peerLeftMsg uid ch) else none
        | none => none)
      ({ st with channelPeers := chanSet st.channelPeers ch members }, outbox)
    else (st, [])
  else if truthy e.toId then
    match findConn st.connectedUsers (e.toId.getD "") with
    | some c => if wsOpen c.1 then (st, [(c.1, e)]) else (st, [])
    | none => (st, [])
  else (st, [])

/-! ## Client session (WebRTCManager, client/src/lib/webrtc.ts) -/

/-- Connection state of a peer link: freshly created, transport-connected,
or closed. -/
inductive ConnState
  | fresh
  | connected
  | closed
deriving DecidableEq, Repr

/-- An `RTCPeerConnection` as observed by the session: creation counter
`pcId`, its senders, which descriptions have been applied, its connection
state, and the counter for fresh sender ids. -/
structure PeerConn where
  pcId : Nat
  senders : List Sender
  localSet : Bool
  remoteSet : Bool
  connState : ConnState
  nextSenderId : Nat
deriving DecidableEq, Repr

/-- An `RTCDataChannel` as observed by the session: whether it is open. -/
structure DataCh where
  chOpen : Bool
deriving DecidableEq, Repr

/-- The `WebRTCManager` fields: identity, the `peers` and `dataChannels`
maps, the local capture stream, the media flags, plus the counter used to
mint fresh `pcId`s. -/
structure Manager where
  userId : String
  peers : List (String × PeerConn)
  dataChannels : List (String × DataCh)
  localStream : Option (List Track)
  isVoiceEnabled : Bool
  isVideoEnabled : Bool
  nextPcId : Nat
deriving DecidableEq, Repr

/-- A fresh manager as built by the `WebRTCManager` constructor. -/
def initManager (uid : String) : Manager :=
  { userId := uid, peers := [], dataChannels := [], localStream := none,
    isVoiceEnabled := false, isVideoEnabled := false, nextPcId := 0 }

/-- A just-constructed `RTCPeerConnection` with creation counter `n`. -/
def freshPc (n : Nat) : PeerConn :=
  { pcId := n, senders := [], localSet := false, remoteSet := false,
    connState := ConnState.fresh, nextSenderId := 0 }

/-- `createPeerConnection(peerId)`: builds a fresh `RTCPeerConnection` and
stores it in `peers` via `Map.set` (replacing any existing entry). -/
def createPeerConnection (m : Manager) (peerId : String) : Manager × PeerConn :=
  let pc := freshPc m.nextPcId
  ({ m with peers := mSet m.peers peerId pc, nextPcId := m.nextPcId + 1 }, pc)

/-- `peerConnection.addTrack(track, stream)`: appends a fresh sender
carrying the track. -/
def addTrack (pc : PeerConn) (t : Track) : PeerConn :=
  { pc with senders := pc.senders ++ [{ senderId := pc.nextSenderId, track := some t }],
            nextSenderId := pc.nextSenderId + 1 }

/-- `stream.getTracks().forEach(track => pc.addTrack(track, stream))`. -/
def addTracks : PeerConn → List Track → PeerConn
  | pc, [] => pc
  | pc, t :: ts => addTracks (addTrack pc t) ts

/-- The `offer{from, to, data}` envelope sent by `connectToPeer`. -/
def offerMsg (uid peerId : String) : Envelope :=
  { etype := "offer", fromId := some uid, toId := some peerId,
    payload := some ("sdp-offer:" ++ uid) }

/-- The `answer{from, to, data}` envelope sent by `handleOffer`. -/
def answerMsg (uid peerId : String) : Envelope :=
  { etype := "answer", fromId := some uid, toId := some peerId,
    payload := some ("sdp-answer:" ++ uid) }

/-- `connectToPeer(peerId)`: always creates a fresh connection (replacing
any registry entry for `peerId`), creates the messages data channel, adds
any active local tracks, applies the local offer description, and emits the
offer envelope. -/
def connectToPeer (m : Manager) (peerId : String) : Manager × List Envelope :=
  let r := createPeerConnection m peerId
  let m1 := { r.1 with dataChannels := mSet r.1.dataChannels peerId { chOpen := false } }
  let pc1 :=
    match m1.localStream with
    | some ts => addTracks r.2 ts
    | none => r.2
  let pc2 := { pc1 with localSet := true }
  ({ m1 with peers := mSet m1.peers peerId pc2 }, [offerMsg m.userId peerId])

/-- `handleOffer(signal)`: always creates a fresh connection for
`signal.from` (replacing any registry entry), applies the remote offer, adds
local tracks, applies the local answer, and emits the answer envelope.  The
transport connecting (and the answerer-side data channel arriving open) is
modelled as taking effect once both descriptions are applied, i.e. here. -/
def handleOffer (m : Manager) (sig : Envelope) : Manager × List Envelope :=
  let src := sig.fromId.getD ""
  let r := createPeerConnection m src
  let pc1 := { r.2 with remoteSet := true }
  let pc2 :=
    match r.1.localStream with
    | some ts => addTracks pc1 ts
    | none => pc1
  let pc3 := { pc2 with localSet := true, connState := ConnState.connected }
  ({ r.1 with peers := mSet r.1.peers src pc3,
              dataChannels := mSet r.1.dataChannels src { chOpen := true } },
   [answerMsg m.userId src])

/-- `handleAnswer(signal)`: applies the remote answer when a connection for
`signal.from` exists; both descriptions are then applied, so the transport
connects and the offerer-side data channel opens. -/
def handleAnswer (m : Manager) (sig : Envelope) : Manager :=
  let src := sig.fromId.getD ""
  match mGet m.peers src with
  | some pc =>
      { m with peers := mSet m.peers src { pc with remoteSet := true,
                                                   connState := ConnState.connected },
               dataChannels := mSet m.dataChannels src { chOpen := true } }
  | none => m

/-- `handleIceCandidate(signal)`: applies the candidate to the matching
connection when one exists; no observable session-state change. -/
def handleIceCandidate (m : Manager) (sig : Envelope) : Manager :=
  m

/-- `disconnectFromPeer(peerId)`: closes and removes the connection and
drops the data channel. -/
def disconnectFromPeer (m : Manager) (peerId : String) : Manager :=
  { m with peers := mDel m.peers peerId, dataChannels := mDel m.dataChannels peerId }

/-- `handleSignal(signal)`: the session's envelope dispatch (the `switch` on
`signal.type`; unknown types fall through doing nothing). Returns the new
manager and the envelopes sent back to the coordinator. -/
def handleSignal (m : Manager) (sig : Envelope) : Manager × List Envelope :=
  if sig.etype = "peer-joined" then connectToPeer m (sig.fromId.getD "")
  else if sig.etype = "peer-left" then (disconnectFromPeer m (sig.fromId.getD ""), [])
  else if sig.etype = "offer" then handleOffer m sig
  else if sig.etype = "answer" then (handleAnswer m sig, [])
  else if sig.etype = "ice-candidate" then (handleIceCandidate m sig, [])
  else (m, [])

/-- `sendMessage(content)`: fan-out of `content` over every data channel
whose `readyState` is open; returns the `(peerId, content)` sends. -/
def sendMessage (m : Manager) (content : String) : List (String × String) :=
  m.dataChannels.filterMap (fun c => if c.2.chOpen then some (c.1, content) else none)

/-- The hook-level `sendMessage(channelId, content)` from `useWebRTC`: the
`channelId` argument is accepted and ignored. -/
def hookSendMessage (m : Manager) (channelId : String) (content : String) :
    List (String × String) :=
  sendMessage m content

/-- The outcome of a media-capture request made to the browser. -/
inductive CaptureErr
  | denied
deriving DecidableEq, Repr

/-- `startVoiceCall()`: on capture success stores the stream, sets the voice
flag and adds the tracks to every existing connection; a capture rejection
is caught by the `try/catch` (only logged), so the operation always resolves
without error. -/
def startVoiceCall (m : Manager) (capture : Except CaptureErr (List Track)) :
    Except CaptureErr Manager :=
  match capture with
  | Except.error _ => Except.ok m
  | Except.ok ts =>
      Except.ok { m with localStream := some ts, isVoiceEnabled := true,
                         peers := m.peers.map (fun c => (c.1, addTracks c.2 ts)) }

/-- `startVideoCall()`: as `startVoiceCall` with the video flag. -/
def startVideoCall (m : Manager) (capture : Except CaptureErr (List Track)) :
    Except CaptureErr Manager :=
  match capture with
  | Except.error _ => Except.ok m
  | Except.ok ts =>
      Except.ok { m with localStream := some ts, isVideoEnabled := true,
                         peers := m.peers.map (fun c => (c.1, addTracks c.2 ts)) }

/-- `s.track && s.track.kind === 'video'`: the sender-search predicate of
`startScreenShare`. -/
def isVideoSender (s : Sender) : Bool :=
  match s.track with
  | some tr => decide (tr.kind = "video")
  | none => false

/-- `sender.replaceTrack(...)` applied to the first video sender found by
`getSenders().find(...)`: swaps that sender's track in place, leaving every
other sender untouched. -/
def replaceFirstVideoTrack : List Sender → Track → List Sender
  | [], _ => []
  | s :: rest, t =>
      if isVideoSender s then { s with track := some t } :: rest
      else s :: replaceFirstVideoTrack rest t

/-- The per-connection body of `startScreenShare`: replace the first video
sender's track when one exists, otherwise add the screen video track as a
new track. -/
def screenShareOnPc (pc : PeerConn) (t : Track) : PeerConn :=
  if pc.senders.any isVideoSender then
    { pc with senders := replaceFirstVideoTrack pc.senders t }
  else addTrack pc t

/-- `localStream.removeTrack(videoTrack)` for the first video track, when
one exists (the source stops and removes `getVideoTracks()[0]`). -/
def removeFirstVideo : List Track → List Track
  | [] => []
  | t :: ts => if t.kind = "video" then ts else t :: removeFirstVideo ts

/-- `startScreenShare()`: on display-capture success, applies the
replace-or-add step to every peer connection with the first video track of
the captured stream, then swaps the local stream's camera video track for
the screen tracks; a capture rejection is caught by the `try/catch`, so the
operation always resolves without error. -/
def startScreenShare (m : Manager) (capture : Except CaptureErr (List Track)) :
    Except CaptureErr Manager :=
  match capture with
  | Except.error _ => Except.ok m
  | Except.ok screen =>
      match (screen.filter (fun tr => decide (tr.kind = "video"))).head? with
      | none => Except.ok m
      | some t =>
          let m1 := { m with
            peers := m.peers.map (fun (c : String × PeerConn) => (c.1, screenShareOnPc c.2 t)) }
          Except.ok
            (match m1.localStream with
             | some ts => { m1 with localStream := some (removeFirstVideo ts ++ screen) }
             | none => m1)

/-- The observable effect of `cleanup()`: the reset manager, the `pcId`s of
the connections on which `close()` was invoked, and the local tracks on
which `stop()` was invoked. -/
structure CleanupResult where
  manager : Manager
  closedPcIds : List Nat
  stoppedTracks : List Track
deriving DecidableEq, Repr

/-- `cleanup()`: closes every peer connection, clears both maps, stops every
local track and drops the stream, and resets the media flags. -/
def cleanup (m : Manager) : CleanupResult :=
  { manager := { m with peers := [], dataChannels := [], localStream := none,
                        isVoiceEnabled := false, isVideoEnabled := false },
    closedPcIds := m.peers.map (fun (c : String × PeerConn) => c.2.pcId),
    stoppedTracks := m.localStream.getD [] }

/-- The `leave-channel{userId, channelId}` envelope sent by the hook. -/
def leaveChannelMsg (uid ch : String) : Envelope :=
  { etype := "leave-channel", userId := some uid, channelId := some ch }

/-- The observable effect of the hook-level `leaveChannel(channelId)`. -/
structure LeaveResult where
  sent : Envelope
  result : CleanupResult
deriving DecidableEq, Repr

/-- The hook-level `leaveChannel(channelId)` from `useWebRTC`: sends the
`leave-channel` envelope, then runs the manager's full `cleanup()`. -/
def hookLeaveChannel (m : Manager) (channelId : String) : LeaveResult :=
  { sent := leaveChannelMsg m.userId channelId, result := cleanup m }

/-- The `join-channel{userId, channelId}` envelope sent by the hook. -/
def joinMsg (uid ch : String) : Envelope :=
  { etype := "join-channel", userId := some uid, channelId := some ch }

/-! ## Whole-system simulation (coordinator plus one session per client) -/

/-- One client of the simulation: its socket id and its session manager. -/
structure SimClient where
  wsId : Nat
  mgr : Manager
deriving DecidableEq, Repr

/-- An in-flight transport message: an envelope travelling to the
coordinator from a given socket, or to a given socket's client. -/
inductive NetMsg
  | toServer (senderWs : Nat) (e : Envelope)
  | toClient (wsId : Nat) (e : Envelope)
deriving DecidableEq, Repr

/-- The whole system: coordinator state, clients, and the FIFO queue of
in-flight messages (the transport delivers in order). -/
structure World where
  server : ServerState
  clients : List SimClient
  queue : List NetMsg
deriving Repr

/-- Deliver the head in-flight message: coordinator envelopes run
`handleMessage` (all sockets open), client envelopes run `handleSignal` of
the addressed client; the responses are enqueued. -/
def stepWorld (w : World) : World :=
  match w.queue with
  | [] => w
  | msg :: rest =>
    match msg with
    | NetMsg.toServer ws e =>
        let r := handleMessage (fun _ => true) w.server ws e
        { w with server := r.1,
                 queue := rest ++ r.2.map (fun p => NetMsg.toClient p.1 p.2) }
    | NetMsg.toClient ws e =>
        match w.clients.find? (fun c => decide (c.wsId = ws)) with
        | none => { w with queue := rest }
        | some c =>
            let r := handleSignal c.mgr e
            { w with
              clients := w.clients.map (fun c2 =>
                if c2.wsId = ws then { c2 with mgr := r.1 } else c2),
              queue := rest ++ r.2.map (fun e2 => NetMsg.toServer ws e2) }

/-- Run the system until the queue is empty or the fuel runs out. -/
def runWorld : Nat → World → World
  | 0, w => w
  | fuel + 1, w =>
    match w.queue with
    | [] => w
    | _ => runWorld fuel (stepWorld w)

/-- The initial world: one idle client per identity (socket ids in listing
order), an empty coordinator, nothing in flight. -/
def initWorld (ids : List String) : World :=
  { server := { connectedUsers := [], channelPeers := [] },
    clients := ids.enum.map (fun p => { wsId := p.1, mgr := initManager p.2 }),
    queue := [] }

/-- Put one hook-level `joinChannel` send in flight. -/
def enqueueJoin (w : World) (ws : Nat) (uid ch : String) : World :=
  { w with queue := w.queue ++ [NetMsg.toServer ws (joinMsg uid ch)] }

/-- Sequential joins: each identity joins the channel and the system runs to
quiescence before the next identity joins. -/
def joinAll (ch : String) (ids : List String) : World :=
  ids.enum.foldl (fun w p => runWorld 400 (enqueueJoin w p.1 p.2 ch)) (initWorld ids)

/-- Mesh completeness of a settled world: every identity's session holds,
for every other identity, exactly one registry entry, in `connected` state,
and holds no further links. -/
def meshComplete (w : World) (ids : List String) : Bool :=
  ids.all (fun a =>
    match w.clients.find? (fun c => decide (c.mgr.userId = a)) with
    | none => false
    | some c =>
        decide (c.mgr.peers.length + 1 = ids.length) &&
        ids.all (fun b =>
          if a = b then true
          else
            decide ((c.mgr.peers.filter (fun p => decide (p.1 = b))).length = 1) &&
            match mGet c.mgr.peers b with
            | some pc => decide (pc.connState = ConnState.connected)
            | none => false))


/-- Every socket open: the environment used by the simulation and the
concrete scenarios. -/
def allOpen : Nat → Bool := fun _ => true

/-! ## Concrete scenario states used by the claim theorems -/

/-- C1 scenario: the envelope relayed towards identity `a` after its
supersession. -/
def c1Env : Envelope :=
  { etype := "offer", fromId := some "b", toId := some "a", payload := some "blob" }

/-- C1 scenario: coordinator state after socket 0 joined channel `c` as `a`. -/
def c1StateA : ServerState :=
  (handleMessage allOpen { connectedUsers := [], channelPeers := [] } 0 (joinMsg "a" "c")).1

/-- C1 scenario: the same identity `a` joins again on the new socket 1 while
socket 0 is still registered and open. -/
def c1StateB : ServerState :=
  (handleMessage allOpen c1StateA 1 (joinMsg "a" "c")).1

/-- C1 witness scenario: a coordinator with the single prior binding of `a`. -/
def c1WitState : ServerState :=
  { connectedUsers := [(0, "a")], channelPeers := [("c", ["a"])] }

/-- C3 scenario: an established connected link to peer `b`. -/
def c3Pc : PeerConn :=
  { pcId := 0, senders := [], localSet := true, remoteSet := true,
    connState := ConnState.connected, nextSenderId := 0 }

/-- C3 scenario: a session of `a` already holding the link to `b`. -/
def c3M : Manager :=
  { userId := "a", peers := [("b", c3Pc)], dataChannels := [("b", { chOpen := true })],
    localStream := none, isVoiceEnabled := false, isVideoEnabled := false, nextPcId := 1 }

/-- C4 scenario: `a` and `b` both registered and members of channel `c`. -/
def c4State : ServerState :=
  { connectedUsers := [(0, "a"), (1, "b")], channelPeers := [("c", ["a", "b"])] }

/-- C5 scenario: `a` on socket 0 and `b` on socket 1, both in channel `c`. -/
def c5State : ServerState :=
  { connectedUsers := [(0, "a"), (1, "b")], channelPeers := [("c", ["a", "b"])] }

/-- C5 scenario: an envelope addressed to `b` whose sender never filled in
`from`. -/
def c5Env : Envelope :=
  { etype := "offer", toId := some "b", payload := some "opaque-sdp" }

/-- C6 scenario: `a` is registered and alone in channel `c`. -/
def c6State : ServerState :=
  { connectedUsers := [(0, "a")], channelPeers := [("c", ["a"])] }

/-- C8 scenario: a link already sending a camera video track. -/
def c8PcVideo : PeerConn :=
  { pcId := 0,
    senders := [{ senderId := 0, track := some { kind := "audio", source := "mic" } },
                { senderId := 1, track := some { kind := "video", source := "camera" } }],
    localSet := true, remoteSet := true, connState := ConnState.connected,
    nextSenderId := 2 }

/-- C8 scenario: a link with no video sender. -/
def c8PcAudio : PeerConn :=
  { pcId := 1,
    senders := [{ senderId := 0, track := some { kind := "audio", source := "mic" } }],
    localSet := true, remoteSet := true, connState := ConnState.connected,
    nextSenderId := 1 }

/-- C8 scenario: a session with both links and a camera stream active. -/
def c8M : Manager :=
  { userId := "a", peers := [("b", c8PcVideo), ("d", c8PcAudio)],
    dataChannels := [("b", { chOpen := true }), ("d", { chOpen := true })],
    localStream := some [{ kind := "audio", source := "mic" },
                         { kind := "video", source := "camera" }],
    isVoiceEnabled := true, isVideoEnabled := true, nextPcId := 2 }

/-- C8 scenario: the captured display stream. -/
def c8Screen : List Track :=
  [{ kind := "video", source := "screen" }, { kind := "audio", source := "screen" }]

/-- C9 scenario: channel `c` with members `a` and `b`; `x` is registered but
not a member. -/
def c9State : ServerState :=
  { connectedUsers := [(0, "a"), (1, "b"), (2, "x")],
    channelPeers := [("c", ["a", "b"])] }

/-- C10 scenario: a session with one connected link and one pending link. -/
def c10M : Manager :=
  { userId := "a",
    peers := [("b", { pcId := 0, senders := [], localSet := true, remoteSet := true,
                      connState := ConnState.connected, nextSenderId := 0 }),
              ("d", { pcId := 1, senders := [], localSet := true, remoteSet := false,
                      connState := ConnState.fresh, nextSenderId := 0 })],
    dataChannels := [("b", { chOpen := true }), ("d", { chOpen := false })],
    localStream := some [{ kind := "audio", source := "mic" }],
    isVoiceEnabled := true, isVideoEnabled := false, nextPcId := 2 }

/-! ## Structural lemmas about the map embedding -/

theorem find?_map_replace {κ α : Type} [DecidableEq κ] (l : List (κ × α)) (k q : κ) (v : α)
    (hne : q ≠ k) :
    List.find? (fun c => decide (c.1 = q)) (l.map (fun c => if c.1 = k then (k, v) else c)) =
      List.find? (fun c => decide (c.1 = q)) l := by
  induction l with
  | nil => rfl
  | cons c rest ih =>
    by_cases hc : c.1 = k
    · have hkq : ¬(k = q) := fun hh => hne hh.symm
      have hcq : ¬(c.1 = q) := fun hh => hkq (hc.symm.trans hh)
      simp [List.find?_cons, hc, hkq, hcq, ih]
    · by_cases hq : c.1 = q
      · simp [List.find?_cons, hc, hq, hne]
      · simp [List.find?_cons, hc, hq, ih]

theorem mGet_mSet_self {κ α : Type} [DecidableEq κ] (m : List (κ × α)) (k : κ) (v : α) :
    mGet (mSet m k v) k = some v := by
  unfold mGet mSet
  by_cases h : m.any (fun c => decide (c.1 = k)) = true
  · rw [if_pos h]
    induction m with
    | nil => simp at h
    | cons c rest ih =>
      by_cases hc : c.1 = k
      · simp [List.find?_cons, hc]
      · have h' : rest.any (fun c => decide (c.1 = k)) = true := by
          simpa [List.any_cons, hc] using h
        simpa [List.find?_cons, hc] using ih h'
  · rw [if_neg h]
    have hnone : m.find? (fun c => decide (c.1 = k)) = none := by
      rw [List.find?_eq_none]
      intro c hc hk
      exact h (List.any_eq_true.mpr ⟨c, hc, hk⟩)
    rw [List.find?_append, hnone]
    simp [List.find?_cons]

theorem mGet_mSet_ne {κ α : Type} [DecidableEq κ] (m : List (κ × α)) (k q : κ) (v : α)
    (hne : q ≠ k) : mGet (mSet m k v) q = mGet m q := by
  unfold mGet mSet
  by_cases h : m.any (fun c => decide (c.1 = k)) = true
  · rw [if_pos h, find?_map_replace m k q v hne]
  · rw [if_neg h, List.find?_append]
    cases hf : m.find? (fun c => decide (c.1 = q)) with
    | some c => simp
    | none =>
      have hkq : ¬(k = q) := fun hh => hne hh.symm
      simp [List.find?_cons, hkq]

theorem mSet_key_val {κ α : Type} [DecidableEq κ] (m : List (κ × α)) (k : κ) (v : α) :
    ∀ c ∈ mSet m k v, c.1 = k → c.2 = v := by
  intro c hc hk
  unfold mSet at hc
  by_cases h : m.any (fun c => decide (c.1 = k)) = true
  · rw [if_pos h] at hc
    rcases List.mem_map.mp hc with ⟨c0, _, hmap⟩
    by_cases hc0 : c0.1 = k
    · rw [if_pos hc0] at hmap
      exact hmap ▸ rfl
    · rw [if_neg hc0] at hmap
      exact absurd (hmap ▸ hk) hc0
  · rw [if_neg h] at hc
    rcases List.mem_append.mp hc with hin | hone
    · exact absurd (List.any_eq_true.mpr ⟨c, hin, by simp [hk]⟩) h
    · rcases List.mem_singleton.mp hone with rfl
      rfl

theorem mem_mSet_of_ne {κ α : Type} [DecidableEq κ] (m : List (κ × α)) (k : κ) (v : α)
    (c : κ × α) (hc : c ∈ m) (hne : c.1 ≠ k) : c ∈ mSet m k v := by
  unfold mSet
  by_cases h : m.any (fun c => decide (c.1 = k)) = true
  · rw [if_pos h]
    have : (if c.1 = k then (k, v) else c) = c := if_neg hne
    exact this ▸ List.mem_map_of_mem _ hc
  · rw [if_neg h]
    exact List.mem_append_left _ hc

theorem keysOf_mSet_nodup {κ α : Type} [DecidableEq κ] (m : List (κ × α)) (k : κ) (v : α)
    (h : (keysOf m).Nodup) : (keysOf (mSet m k v)).Nodup := by
  unfold mSet
  by_cases hany : m.any (fun c => decide (c.1 = k)) = true
  · rw [if_pos hany]
    have : keysOf (m.map (fun c => if c.1 = k then (k, v) else c)) = keysOf m := by
      unfold keysOf
      rw [List.map_map]
      apply List.map_congr_left
      intro c _
      by_cases hc : c.1 = k
      · simp [hc]
      · simp [hc]
    rw [this]
    exact h
  · rw [if_neg hany]
    unfold keysOf
    rw [List.map_append]
    simp only [List.map_cons, List.map_nil]
    apply List.Nodup.append h (List.nodup_singleton k)
    intro a ha hb
    rcases List.mem_singleton.mp hb with rfl
    rcases List.mem_map.mp ha with ⟨c, hcm, rfl⟩
    exact hany (List.any_eq_true.mpr ⟨c, hcm, by simp⟩)

theorem mSet_eq_append {κ α : Type} [DecidableEq κ] (m : List (κ × α)) (k : κ) (v : α)
    (h : m.any (fun c => decide (c.1 = k)) = false) : mSet m k v = m ++ [(k, v)] := by
  unfold mSet
  rw [if_neg (by simp [h])]

/-- Characterization of the coordinator's join-channel branch. -/
theorem handleJoin_eq (wsOpen : Nat → Bool) (st : ServerState) (ws : Nat) (uid ch : String)
    (huid : uid ≠ "") (hch : ch ≠ "") :
    handleMessage wsOpen st ws (joinMsg uid ch) =
      ({ connectedUsers := mSet st.connectedUsers ws uid,
         channelPeers := chanSet st.channelPeers ch (setAdd (membersOf st ch) uid) },
       (setAdd (membersOf st ch) uid).filterMap (fun p =>
         if p = uid then none
         else
           match findConn (mSet st.connectedUsers ws uid) p with
           | some c => if wsOpen c.1 then some (c.1, peerJoinedMsg uid ch) else none
           | none => none)) := by
  unfold handleMessage
  rw [if_pos (show (joinMsg uid ch).etype = "join-channel" from rfl),
      if_pos (show (truthy (joinMsg uid ch).userId
        && truthy (joinMsg uid ch).channelId) = true by simp [joinMsg, truthy, huid, hch])]
  rfl

/-- Characterization of the coordinator's leave-channel branch when the
channel is present. -/
theorem handleLeave_eq (wsOpen : Nat → Bool) (st : ServerState) (ws : Nat) (uid ch : String)
    (ms : List String) (hget : chanGet st.channelPeers ch = some ms)
    (huid : uid ≠ "") (hch : ch ≠ "") :
    handleMessage wsOpen st ws (leaveChannelMsg uid ch) =
      ({ st with channelPeers :=
           chanSet st.channelPeers ch (ms.filter (fun p => decide (p ≠ uid))) },
       (ms.filter (fun p => decide (p ≠ uid))).filterMap (fun p =>
         match findConn st.connectedUsers p with
         | some c => if wsOpen c.1 then some (c.1, peerLeftMsg uid ch) else none
         | none => none)) := by
  unfold handleMessage
  rw [if_neg (show ¬((leaveChannelMsg uid ch).etype = "join-channel") by simp [leaveChannelMsg]),
      if_pos (show (leaveChannelMsg uid ch).etype = "leave-channel" from rfl),
      if_pos (show (truthy (leaveChannelMsg uid ch).userId
          && truthy (leaveChannelMsg uid ch).channelId
          && (chanGet st.channelPeers ((leaveChannelMsg uid ch).channelId.getD "")).isSome)
          = true by simp [leaveChannelMsg, truthy, huid, hch, hget])]
  have : (chanGet st.channelPeers ((leaveChannelMsg uid ch).channelId.getD "")).getD [] = ms := by
    simp [leaveChannelMsg, hget]
  simp only [leaveChannelMsg, Option.getD_some] at this ⊢
  rw [this]

/-- Characterization of the coordinator's relay branch. -/
theorem relay_eq (wsOpen : Nat → Bool) (st : ServerState) (ws : Nat) (e : Envelope)
    (t : String)
    (hty1 : e.etype ≠ "join-channel") (hty2 : e.etype ≠ "leave-channel")
    (hto : e.toId = some t) (ht : t ≠ "") :
    handleMessage wsOpen st ws e =
      (match findConn st.connectedUsers t with
       | some c => if wsOpen c.1 then (st, [(c.1, e)]) else (st, [])
       | none => (st, [])) := by
  unfold handleMessage
  rw [if_neg hty1, if_neg hty2,
      if_pos (show truthy e.toId = true by rw [hto]; simpa [truthy] using ht),
      show e.toId.getD "" = t by rw [hto]; rfl]

/-! ## Claim theorems -/

set_option maxRecDepth 8000

/-- C2: for N identities (N in 2, 3, 5) that sequentially join the same
channel, after every join-channel broadcast and every offer/answer handshake
step has been processed to quiescence, every unordered pair of identities
has exactly one Connected peer link between them: each session holds exactly
one registry entry per other member, in connected state, and no others. -/
theorem c2_mesh_completeness :
    meshComplete (joinAll "c" ["a", "b"]) ["a", "b"] = true ∧
    meshComplete (joinAll "c" ["a", "b", "d"]) ["a", "b", "d"] = true ∧
    meshComplete (joinAll "c" ["a", "b", "d", "e", "f"]) ["a", "b", "d", "e", "f"] = true := by
  refine ⟨by decide, by decide, by decide⟩

/-- C7 (counterexample to the claim as stated): a denied capture in
`startVoiceCall` is not surfaced to the caller as an error — the operation
resolves as success with the session unchanged. -/
theorem c7_counterexample :
    startVoiceCall (initManager "a") (Except.error CaptureErr.denied)
      = Except.ok (initManager "a") ∧
    startVoiceCall (initManager "a") (Except.error CaptureErr.denied)
      ≠ Except.error CaptureErr.denied :=
  ⟨rfl, by intro h; exact Except.noConfusion h⟩

/-- C7 (amended): when media capture fails in `startVoiceCall`,
`startVideoCall` or `startScreenShare`, the failure is caught inside the
operation (only logged) and never surfaced to the caller; the session state,
including every existing peer link, is completely unchanged. -/
theorem c7_capture_failure_swallowed (m : Manager) :
    startVoiceCall m (Except.error CaptureErr.denied) = Except.ok m ∧
    startVideoCall m (Except.error CaptureErr.denied) = Except.ok m ∧
    startScreenShare m (Except.error CaptureErr.denied) = Except.ok m :=
  ⟨rfl, rfl, rfl⟩

/-- C7 witness: the amended theorem applied to a concrete session. -/
theorem c7_capture_failure_swallowed_witness :
    startVoiceCall (initManager "u") (Except.error CaptureErr.denied)
      = Except.ok (initManager "u") :=
  (c7_capture_failure_swallowed (initManager "u")).1

/-- C10: the hook-level `sendMessage(channelId, content)` ignores
`channelId` — it sends `content` over exactly the open data channels of the
session — and `leaveChannel(channelId)` tears down the entire session
regardless of `channelId`: every peer connection is closed, both maps are
cleared, and every local media track is stopped. -/
theorem c10_channel_id_ignored (m : Manager) (ch1 ch2 content : String) :
    hookSendMessage m ch1 content = hookSendMessage m ch2 content ∧
    (∀ p dc, (p, dc) ∈ m.dataChannels → dc.chOpen = true →
      (p, content) ∈ hookSendMessage m ch1 content) ∧
    (∀ p s, (p, s) ∈ hookSendMessage m ch1 content →
      s = content ∧ ∃ dc, (p, dc) ∈ m.dataChannels ∧ dc.chOpen = true) ∧
    (hookLeaveChannel m ch1).result = (hookLeaveChannel m ch2).result ∧
    (hookLeaveChannel m ch1).result.manager.peers = [] ∧
    (hookLeaveChannel m ch1).result.manager.dataChannels = [] ∧
    (hookLeaveChannel m ch1).result.manager.localStream = none ∧
    (hookLeaveChannel m ch1).result.closedPcIds
      = m.peers.map (fun (c : String × PeerConn) => c.2.pcId) ∧
    (hookLeaveChannel m ch1).result.stoppedTracks = m.localStream.getD [] := by
  refine ⟨rfl, ?_, ?_, rfl, rfl, rfl, rfl, rfl, rfl⟩
  · intro p dc hmem hopen
    exact List.mem_filterMap.mpr ⟨(p, dc), hmem, by simp [hopen]⟩
  · intro p s hmem
    rcases List.mem_filterMap.mp hmem with ⟨c, hc, heq⟩
    by_cases hop : c.2.chOpen = true
    · rw [if_pos hop] at heq
      have heq2 := Option.some.inj heq
      have h1 : c.1 = p := congrArg Prod.fst heq2
      have h2 : content = s := congrArg Prod.snd heq2
      have hmem2 : (c.1, c.2) ∈ m.dataChannels := by simpa using hc
      exact ⟨h2.symm, c.2, h1 ▸ hmem2, hop⟩
    · rw [if_neg hop] at heq
      exact Option.noConfusion heq

/-- C10 witness: channel-argument independence at a concrete session. -/
theorem c10_channel_id_ignored_witness :
    hookSendMessage c10M "chan1" "hi" = hookSendMessage c10M "chan2" "hi" :=
  (c10_channel_id_ignored c10M "chan1" "chan2" "hi").1

/-- C1 (counterexample to the claim as stated): after identity `a`
(registered on socket 0, still open) joins again on socket 1, the prior
binding is still registered and an envelope addressed to `a` is delivered to
the stale socket 0, not to the new binding. -/
theorem c1_counterexample :
    (0, "a") ∈ c1StateB.connectedUsers ∧ (1, "a") ∈ c1StateB.connectedUsers ∧
    (handleMessage allOpen c1StateB 2 c1Env).2 = [(0, c1Env)] := by
  decide

/-- C3 (counterexample to the claim as stated): `connectToPeer` for a remote
identity whose link is present and connected is not a no-op — the registry
entry is replaced by a freshly created connection (`pcId` 1 in place of 0). -/
theorem c3_counterexample :
    mGet c3M.peers "b" = some c3Pc ∧ c3Pc.pcId = 0 ∧
    (mGet (connectToPeer c3M "b").1.peers "b").map PeerConn.pcId = some 1 := by
  decide

/-- C4 (counterexample to the claim as stated): a repeated
join-channel{b, c} leaves the single membership entry in place but sends an
additional peer-joined broadcast about `b` to the other member. -/
theorem c4_counterexample :
    membersOf (handleMessage allOpen c4State 1 (joinMsg "b" "c")).1 "c" = ["a", "b"] ∧
    (handleMessage allOpen c4State 1 (joinMsg "b" "c")).2
      = [(0, peerJoinedMsg "b" "c")] := by
  decide

/-- C5 (counterexample to the claim as stated): an envelope addressed to the
bound identity `b` but carrying no `from` field is delivered with `from`
still absent — the coordinator does not set `from`. -/
theorem c5_counterexample :
    (handleMessage allOpen c5State 0 c5Env).2 = [(1, c5Env)] ∧
    c5Env.fromId = none := by
  decide


/-- C1 (amended): when an identity that already has a live binding registers
again via join-channel on a fresh socket, the coordinator does not close or
release the prior binding — it stays in the binding table — and a subsequent
envelope addressed to that identity is delivered to the earliest-registered
(stale) binding while that socket is open, never to the new one. -/
theorem c1_stale_binding_retained (st : ServerState) (w0 w1 ws2 : Nat) (uid ch : String)
    (e : Envelope)
    (hfresh : st.connectedUsers.any (fun c => decide (c.1 = w1)) = false)
    (hfind : findConn st.connectedUsers uid = some (w0, uid))
    (huid : uid ≠ "") (hch : ch ≠ "")
    (hty1 : e.etype ≠ "join-channel") (hty2 : e.etype ≠ "leave-channel")
    (hto : e.toId = some uid) :
    (w0, uid) ∈ (handleMessage allOpen st w1 (joinMsg uid ch)).1.connectedUsers ∧
    (handleMessage allOpen (handleMessage allOpen st w1 (joinMsg uid ch)).1 ws2 e).2
      = [(w0, e)] := by
  have hj := handleJoin_eq allOpen st w1 uid ch huid hch
  have happ : mSet st.connectedUsers w1 uid = st.connectedUsers ++ [(w1, uid)] :=
    mSet_eq_append _ _ _ hfresh
  have hfind2 : findConn (mSet st.connectedUsers w1 uid) uid = some (w0, uid) := by
    rw [happ]
    unfold findConn at hfind ⊢
    rw [List.find?_append, hfind]
    rfl
  constructor
  · rw [hj]
    dsimp only
    rw [happ]
    exact List.mem_append_left _ (List.mem_of_find?_eq_some hfind)
  · rw [hj]
    dsimp only
    rw [relay_eq allOpen _ ws2 e uid hty1 hty2 hto huid]
    dsimp only
    rw [hfind2]
    rfl

/-- C1 witness: the amended theorem at the concrete supersession scenario. -/
theorem c1_stale_binding_retained_witness :
    (0, "a") ∈ (handleMessage allOpen c1WitState 1 (joinMsg "a" "c")).1.connectedUsers ∧
    (handleMessage allOpen (handleMessage allOpen c1WitState 1 (joinMsg "a" "c")).1 2 c1Env).2
      = [(0, c1Env)] :=
  c1_stale_binding_retained c1WitState 0 1 2 "a" "c" c1Env (by decide) (by decide)
    (by decide) (by decide) (by decide) (by decide) rfl

/-- C4 (amended): a repeated join-channel for an identity already in the
channel leaves the membership list exactly as it was (one entry, `Set.add`
is idempotent), but the handler re-runs the notification loop, so the
repeated join sends one additional peer-joined broadcast to every other
member whose binding is found and open. -/
theorem c4_join_rebroadcast (st : ServerState) (ws : Nat) (uid ch : String)
    (hmem : uid ∈ membersOf st ch) (huid : uid ≠ "") (hch : ch ≠ "") :
    membersOf (handleMessage allOpen st ws (joinMsg uid ch)).1 ch = membersOf st ch ∧
    (∀ p w, p ∈ membersOf st ch → p ≠ uid →
      findConn (mSet st.connectedUsers ws uid) p = some (w, p) →
      (w, peerJoinedMsg uid ch) ∈ (handleMessage allOpen st ws (joinMsg uid ch)).2) := by
  have hj := handleJoin_eq allOpen st ws uid ch huid hch
  have hsetAdd : setAdd (membersOf st ch) uid = membersOf st ch := by
    unfold setAdd
    rw [if_pos hmem]
  constructor
  · have hnew : membersOf (handleMessage allOpen st ws (joinMsg uid ch)).1 ch
        = setAdd (membersOf st ch) uid := by
      rw [hj]
      dsimp only
      unfold membersOf chanGet chanSet
      rw [mGet_mSet_self, Option.getD_some]
    rw [hnew, hsetAdd]
  · intro p w hp hpne hfindp
    rw [hj]
    dsimp only
    rw [hsetAdd]
    apply List.mem_filterMap.mpr
    refine ⟨p, hp, ?_⟩
    dsimp only
    rw [if_neg hpne, hfindp]
    rfl

/-- C4 witness: the amended theorem at the concrete repeated-join scenario. -/
theorem c4_join_rebroadcast_witness :
    membersOf (handleMessage allOpen c4State 1 (joinMsg "b" "c")).1 "c"
      = membersOf c4State "c" ∧
    (∀ p w, p ∈ membersOf c4State "c" → p ≠ "b" →
      findConn (mSet c4State.connectedUsers 1 "b") p = some (w, p) →
      (w, peerJoinedMsg "b" "c") ∈ (handleMessage allOpen c4State 1 (joinMsg "b" "c")).2) :=
  c4_join_rebroadcast c4State 1 "b" "c" (by decide) (by decide) (by decide)

/-- C5 (amended): for an envelope carrying a truthy `to`, the coordinator
looks the addressee up in the binding table; when the first binding with
that identity has an open socket, the envelope is forwarded to it verbatim
(every field, including `from` and `payload`, bit-for-bit unchanged — the
coordinator never sets `from`) with the state untouched; otherwise the
envelope is silently dropped with no delivery and no state change. -/
theorem c5_relay_verbatim (wsOpen : Nat → Bool) (st : ServerState) (ws : Nat) (e : Envelope)
    (t : String)
    (hty1 : e.etype ≠ "join-channel") (hty2 : e.etype ≠ "leave-channel")
    (hto : e.toId = some t) (ht : t ≠ "") :
    (∀ w u, findConn st.connectedUsers t = some (w, u) → wsOpen w = true →
      handleMessage wsOpen st ws e = (st, [(w, e)])) ∧
    (∀ w u, findConn st.connectedUsers t = some (w, u) → wsOpen w = false →
      handleMessage wsOpen st ws e = (st, [])) ∧
    (findConn st.connectedUsers t = none → handleMessage wsOpen st ws e = (st, [])) := by
  have hr := relay_eq wsOpen st ws e t hty1 hty2 hto ht
  refine ⟨?_, ?_, ?_⟩
  · intro w u hfind hopen
    rw [hr, hfind]
    dsimp only
    rw [hopen]
    rfl
  · intro w u hfind hopen
    rw [hr, hfind]
    dsimp only
    rw [hopen]
    rfl
  · intro hfind
    rw [hr, hfind]

/-- C5 witness: the amended theorem at the concrete relay scenario. -/
theorem c5_relay_verbatim_witness :
    (∀ w u, findConn c5State.connectedUsers "b" = some (w, u) → allOpen w = true →
      handleMessage allOpen c5State 0 c5Env = (c5State, [(w, c5Env)])) ∧
    (∀ w u, findConn c5State.connectedUsers "b" = some (w, u) → allOpen w = false →
      handleMessage allOpen c5State 0 c5Env = (c5State, [])) ∧
    (findConn c5State.connectedUsers "b" = none →
      handleMessage allOpen c5State 0 c5Env = (c5State, [])) :=
  c5_relay_verbatim allOpen c5State 0 c5Env "b" (by decide) (by decide) rfl (by decide)

/-- C6: join discovery is asymmetric — every envelope the join handler emits
is a peer-joined{from: joiner, channelId} sent to the open binding of some
other current member, every other member with a found open binding receives
one, and no envelope is ever sent to the joiner's own socket. -/
theorem c6_join_asymmetry (wsOpen : Nat → Bool) (st : ServerState) (ws : Nat) (uid ch : String)
    (huid : uid ≠ "") (hch : ch ≠ "") :
    (∀ w msg, (w, msg) ∈ (handleMessage wsOpen st ws (joinMsg uid ch)).2 →
      msg = peerJoinedMsg uid ch ∧ wsOpen w = true ∧
      ∃ p, p ∈ setAdd (membersOf st ch) uid ∧ p ≠ uid ∧
        findConn (mSet st.connectedUsers ws uid) p = some (w, p)) ∧
    (∀ p w, p ∈ setAdd (membersOf st ch) uid → p ≠ uid →
      findConn (mSet st.connectedUsers ws uid) p = some (w, p) → wsOpen w = true →
      (w, peerJoinedMsg uid ch) ∈ (handleMessage wsOpen st ws (joinMsg uid ch)).2) ∧
    (∀ msg, (ws, msg) ∉ (handleMessage wsOpen st ws (joinMsg uid ch)).2) := by
  have hj := handleJoin_eq wsOpen st ws uid ch huid hch
  have hmain : ∀ w msg, (w, msg) ∈ (handleMessage wsOpen st ws (joinMsg uid ch)).2 →
      msg = peerJoinedMsg uid ch ∧ wsOpen w = true ∧
      ∃ p, p ∈ setAdd (membersOf st ch) uid ∧ p ≠ uid ∧
        findConn (mSet st.connectedUsers ws uid) p = some (w, p) := by
    intro w msg hmem
    rw [hj] at hmem
    dsimp only at hmem
    rcases List.mem_filterMap.mp hmem with ⟨p, hp, hf⟩
    by_cases hpu : p = uid
    · rw [if_pos hpu] at hf
      exact Option.noConfusion hf
    · rw [if_neg hpu] at hf
      cases hfind : findConn (mSet st.connectedUsers ws uid) p with
      | none =>
        rw [hfind] at hf
        exact Option.noConfusion hf
      | some c =>
        rw [hfind] at hf
        dsimp only at hf
        by_cases hop : wsOpen c.1 = true
        · rw [if_pos hop] at hf
          have h2 := Option.some.inj hf
          have hw : c.1 = w := congrArg Prod.fst h2
          have hm : peerJoinedMsg uid ch = msg := congrArg Prod.snd h2
          have hc2 : c.2 = p := by
            have hps := List.find?_some hfind
            simpa using hps
          refine ⟨hm.symm, hw ▸ hop, p, hp, hpu, ?_⟩
          rw [show (w, p) = c from (Prod.ext hw hc2).symm]
          exact hfind
        · rw [if_neg hop] at hf
          exact Option.noConfusion hf
  refine ⟨hmain, ?_, ?_⟩
  · intro p w hp hpne hfindp hopen
    rw [hj]
    dsimp only
    apply List.mem_filterMap.mpr
    refine ⟨p, hp, ?_⟩
    dsimp only
    rw [if_neg hpne, hfindp]
    dsimp only
    rw [hopen]
    rfl
  · intro msg hmem
    rcases hmain ws msg hmem with ⟨_, _, p, _, hpu, hfindp⟩
    have hpair := List.mem_of_find?_eq_some hfindp
    exact hpu (mSet_key_val _ _ _ (ws, p) hpair rfl)

/-- C6 witness: join asymmetry at a concrete two-party scenario. -/
theorem c6_join_asymmetry_witness :
    (∀ w msg, (w, msg) ∈ (handleMessage allOpen c6State 1 (joinMsg "b" "c")).2 →
      msg = peerJoinedMsg "b" "c" ∧ allOpen w = true ∧
      ∃ p, p ∈ setAdd (membersOf c6State "c") "b" ∧ p ≠ "b" ∧
        findConn (mSet c6State.connectedUsers 1 "b") p = some (w, p)) ∧
    (∀ p w, p ∈ setAdd (membersOf c6State "c") "b" → p ≠ "b" →
      findConn (mSet c6State.connectedUsers 1 "b") p = some (w, p) → allOpen w = true →
      (w, peerJoinedMsg "b" "c") ∈ (handleMessage allOpen c6State 1 (joinMsg "b" "c")).2) ∧
    (∀ msg, (1, msg) ∉ (handleMessage allOpen c6State 1 (joinMsg "b" "c")).2) :=
  c6_join_asymmetry allOpen c6State 1 "b" "c" (by decide) (by decide)

/-- C9: a leave-channel naming an existing channel whose member set does not
contain the leaving identity keeps the membership unchanged yet still
broadcasts peer-left{from: identity} to every member whose binding is found
and open — spurious peer-left events. -/
theorem c9_nonmember_leave_spurious (wsOpen : Nat → Bool) (st : ServerState) (ws : Nat)
    (uid ch : String) (ms : List String)
    (hget : chanGet st.channelPeers ch = some ms) (hnot : uid ∉ ms)
    (huid : uid ≠ "") (hch : ch ≠ "") :
    membersOf (handleMessage wsOpen st ws (leaveChannelMsg uid ch)).1 ch = ms ∧
    (∀ p w u, p ∈ ms → findConn st.connectedUsers p = some (w, u) → wsOpen w = true →
      (w, peerLeftMsg uid ch) ∈ (handleMessage wsOpen st ws (leaveChannelMsg uid ch)).2) ∧
    (∀ w msg, (w, msg) ∈ (handleMessage wsOpen st ws (leaveChannelMsg uid ch)).2 →
      msg = peerLeftMsg uid ch) := by
  have hl := handleLeave_eq wsOpen st ws uid ch ms hget huid hch
  have hfilter : ms.filter (fun p => decide (p ≠ uid)) = ms := by
    apply List.filter_eq_self.mpr
    intro p hp
    simp only [decide_eq_true_eq]
    intro hpe
    exact hnot (hpe ▸ hp)
  refine ⟨?_, ?_, ?_⟩
  · have hnew : membersOf (handleMessage wsOpen st ws (leaveChannelMsg uid ch)).1 ch
        = ms.filter (fun p => decide (p ≠ uid)) := by
      rw [hl]
      dsimp only
      unfold membersOf chanGet chanSet
      rw [mGet_mSet_self, Option.getD_some]
    rw [hnew, hfilter]
  · intro p w u hp hfind hopen
    rw [hl]
    dsimp only
    rw [hfilter]
    apply List.mem_filterMap.mpr
    refine ⟨p, hp, ?_⟩
    dsimp only
    rw [hfind]
    dsimp only
    rw [hopen]
    rfl
  · intro w msg hmem
    rw [hl] at hmem
    dsimp only at hmem
    rcases List.mem_filterMap.mp hmem with ⟨p, hp, hf⟩
    cases hfind : findConn st.connectedUsers p with
    | none =>
      rw [hfind] at hf
      exact Option.noConfusion hf
    | some c =>
      rw [hfind] at hf
      dsimp only at hf
      by_cases hop : wsOpen c.1 = true
      · rw [if_pos hop] at hf
        exact (congrArg Prod.snd (Option.some.inj hf)).symm
      · rw [if_neg hop] at hf
        exact Option.noConfusion hf

/-- C9 witness: the spurious broadcast at a concrete non-member leave. -/
theorem c9_nonmember_leave_spurious_witness :
    membersOf (handleMessage allOpen c9State 2 (leaveChannelMsg "x" "c")).1 "c" = ["a", "b"] ∧
    (∀ p w u, p ∈ ["a", "b"] → findConn c9State.connectedUsers p = some (w, u) →
      allOpen w = true →
      (w, peerLeftMsg "x" "c") ∈ (handleMessage allOpen c9State 2 (leaveChannelMsg "x" "c")).2) ∧
    (∀ w msg, (w, msg) ∈ (handleMessage allOpen c9State 2 (leaveChannelMsg "x" "c")).2 →
      msg = peerLeftMsg "x" "c") :=
  c9_nonmember_leave_spurious allOpen c9State 2 "x" "c" ["a", "b"] (by decide) (by decide)
    (by decide) (by decide)


theorem addTracks_pcId (pc : PeerConn) (ts : List Track) :
    (addTracks pc ts).pcId = pc.pcId := by
  induction ts generalizing pc with
  | nil => rfl
  | cons t ts ih => simpa [addTracks, addTrack] using ih (addTrack pc t)

theorem addTracks_connState (pc : PeerConn) (ts : List Track) :
    (addTracks pc ts).connState = pc.connState := by
  induction ts generalizing pc with
  | nil => rfl
  | cons t ts ih => simpa [addTracks, addTrack] using ih (addTrack pc t)

/-- C3 (amended): the registry keeps at most one entry per remote identity
(key uniqueness is preserved), but a duplicate `connectToPeer` — or an
incoming offer via `handleOffer` — for a remote identity is not a no-op: it
mints a brand-new `RTCPeerConnection` (fresh `pcId`, never in closed state)
that replaces the existing registry entry, leaving every other entry
untouched; the displaced connection is dropped without being closed. -/
theorem c3_duplicate_replaces_link (m : Manager) (p : String) (sig : Envelope)
    (hnodup : (keysOf m.peers).Nodup) :
    (keysOf (connectToPeer m p).1.peers).Nodup ∧
    (∃ pc, mGet (connectToPeer m p).1.peers p = some pc ∧ pc.pcId = m.nextPcId ∧
      pc.connState ≠ ConnState.closed) ∧
    (∀ q, q ≠ p → mGet (connectToPeer m p).1.peers q = mGet m.peers q) ∧
    (∃ pc2, mGet (handleOffer m sig).1.peers (sig.fromId.getD "") = some pc2 ∧
      pc2.pcId = m.nextPcId) := by
  cases hls : m.localStream with
  | none =>
    have hp : (connectToPeer m p).1.peers
        = mSet (mSet m.peers p (freshPc m.nextPcId)) p
            { freshPc m.nextPcId with localSet := true } := by
      simp [connectToPeer, createPeerConnection, hls]
    have ho : (handleOffer m sig).1.peers
        = mSet (mSet m.peers (sig.fromId.getD "") (freshPc m.nextPcId)) (sig.fromId.getD "")
            { freshPc m.nextPcId with
                remoteSet := true, localSet := true,
                connState := ConnState.connected } := by
      simp [handleOffer, createPeerConnection, hls]
    refine ⟨?_, ?_, ?_, ?_⟩
    · rw [hp]
      exact keysOf_mSet_nodup _ _ _ (keysOf_mSet_nodup _ _ _ hnodup)
    · rw [hp]
      exact ⟨_, mGet_mSet_self _ _ _, rfl, fun hh => ConnState.noConfusion hh⟩
    · intro q hq
      rw [hp, mGet_mSet_ne _ _ _ _ hq, mGet_mSet_ne _ _ _ _ hq]
    · rw [ho]
      exact ⟨_, mGet_mSet_self _ _ _, rfl⟩
  | some ts =>
    have hp : (connectToPeer m p).1.peers
        = mSet (mSet m.peers p (freshPc m.nextPcId)) p
            { addTracks (freshPc m.nextPcId) ts with localSet := true } := by
      simp [connectToPeer, createPeerConnection, hls]
    have ho : (handleOffer m sig).1.peers
        = mSet (mSet m.peers (sig.fromId.getD "") (freshPc m.nextPcId)) (sig.fromId.getD "")
            { addTracks { freshPc m.nextPcId with remoteSet := true } ts with
                localSet := true,
                connState := ConnState.connected } := by
      simp [handleOffer, createPeerConnection, hls]
    refine ⟨?_, ?_, ?_, ?_⟩
    · rw [hp]
      exact keysOf_mSet_nodup _ _ _ (keysOf_mSet_nodup _ _ _ hnodup)
    · rw [hp]
      refine ⟨_, mGet_mSet_self _ _ _, ?_, ?_⟩
      · show (addTracks (freshPc m.nextPcId) ts).pcId = m.nextPcId
        rw [addTracks_pcId]
        rfl
      · show (addTracks (freshPc m.nextPcId) ts).connState ≠ ConnState.closed
        rw [addTracks_connState]
        intro hh
        exact ConnState.noConfusion hh
    · intro q hq
      rw [hp, mGet_mSet_ne _ _ _ _ hq, mGet_mSet_ne _ _ _ _ hq]
    · rw [ho]
      refine ⟨_, mGet_mSet_self _ _ _, ?_⟩
      show (addTracks { freshPc m.nextPcId with remoteSet := true } ts).pcId = m.nextPcId
      rw [addTracks_pcId]
      rfl

/-- C3 witness: the amended theorem at the concrete duplicate-link session. -/
theorem c3_duplicate_replaces_link_witness :
    (keysOf (connectToPeer c3M "b").1.peers).Nodup ∧
    (∃ pc, mGet (connectToPeer c3M "b").1.peers "b" = some pc ∧ pc.pcId = c3M.nextPcId ∧
      pc.connState ≠ ConnState.closed) ∧
    (∀ q, q ≠ "b" → mGet (connectToPeer c3M "b").1.peers q = mGet c3M.peers q) ∧
    (∃ pc2, mGet (handleOffer c3M (offerMsg "b" "a")).1.peers
        ((offerMsg "b" "a").fromId.getD "") = some pc2 ∧ pc2.pcId = c3M.nextPcId) :=
  c3_duplicate_replaces_link c3M "b" (offerMsg "b" "a") (by decide)

theorem replaceFirstVideoTrack_spec (l : List Sender) (t : Track)
    (h : l.any isVideoSender = true) :
    ∃ pre s post, l = pre ++ s :: post ∧ (∀ x ∈ pre, isVideoSender x = false) ∧
      isVideoSender s = true ∧
      replaceFirstVideoTrack l t = pre ++ ({ s with track := some t } :: post) := by
  induction l with
  | nil => simp at h
  | cons s rest ih =>
    by_cases hs : isVideoSender s = true
    · exact ⟨[], s, rest, rfl, by intro x hx; exact absurd hx (List.not_mem_nil x), hs,
        by simp [replaceFirstVideoTrack, hs]⟩
    · have h' : rest.any isVideoSender = true := by
        rcases List.any_eq_true.mp h with ⟨x, hx, hpx⟩
        rcases List.mem_cons.mp hx with rfl | hx2
        · exact absurd hpx hs
        · exact List.any_eq_true.mpr ⟨x, hx2, hpx⟩
      rcases ih h' with ⟨pre, s2, post, heq, hpre, hs2, hrep⟩
      refine ⟨s :: pre, s2, post, by rw [List.cons_append, ← heq], ?_, hs2, ?_⟩
      · intro x hx
        rcases List.mem_cons.mp hx with rfl | hx2
        · exact Bool.eq_false_iff.mpr hs
        · exact hpre x hx2
      · rw [List.cons_append, ← hrep]
        simp [replaceFirstVideoTrack, hs]

theorem screenShareOnPc_pcId (pc : PeerConn) (t : Track) :
    (screenShareOnPc pc t).pcId = pc.pcId := by
  unfold screenShareOnPc
  by_cases h : pc.senders.any isVideoSender = true
  · rw [if_pos h]
  · rw [if_neg h]
    rfl

theorem screenShareOnPc_connState (pc : PeerConn) (t : Track) :
    (screenShareOnPc pc t).connState = pc.connState := by
  unfold screenShareOnPc
  by_cases h : pc.senders.any isVideoSender = true
  · rw [if_pos h]
  · rw [if_neg h]
    rfl

/-- C8: for every existing peer connection, startScreenShare replaces rather
than duplicates the outgoing video: when the connection already has a sender
carrying a video track, the screen video track replaces the track of the
first such sender in place (all senders before it carry no video, all other
senders are untouched); otherwise the screen video track is added as a new
sender at the end.  No peer link is closed or recreated: the registry keys,
each link's `pcId` and its connection state are unchanged. -/
theorem c8_screen_share_replaces (m : Manager) (screen : List Track) (t : Track)
    (ht : (screen.filter (fun tr => decide (tr.kind = "video"))).head? = some t) :
    ∃ m2, startScreenShare m (Except.ok screen) = Except.ok m2 ∧
      keysOf m2.peers = keysOf m.peers ∧
      ∀ p pc, (p, pc) ∈ m.peers →
        (p, screenShareOnPc pc t) ∈ m2.peers ∧
        (screenShareOnPc pc t).pcId = pc.pcId ∧
        (screenShareOnPc pc t).connState = pc.connState ∧
        (pc.senders.any isVideoSender = true →
          ∃ pre s post, pc.senders = pre ++ s :: post ∧
            (∀ x ∈ pre, isVideoSender x = false) ∧ isVideoSender s = true ∧
            (screenShareOnPc pc t).senders = pre ++ ({ s with track := some t } :: post)) ∧
        (pc.senders.any isVideoSender = false →
          (screenShareOnPc pc t).senders
            = pc.senders ++ [{ senderId := pc.nextSenderId, track := some t }]) := by
  have hrun : ∃ m2, startScreenShare m (Except.ok screen) = Except.ok m2 ∧
      m2.peers = m.peers.map (fun (c : String × PeerConn) => (c.1, screenShareOnPc c.2 t)) := by
    unfold startScreenShare
    dsimp only
    rw [ht]
    dsimp only
    cases hls : m.localStream with
    | none => exact ⟨_, rfl, rfl⟩
    | some ts => exact ⟨_, rfl, rfl⟩
  rcases hrun with ⟨m2, hrun, hp2⟩
  refine ⟨m2, hrun, ?_, ?_⟩
  · rw [hp2]
    unfold keysOf
    rw [List.map_map]
    apply List.map_congr_left
    intro c _
    rfl
  · intro p pc hmem
    refine ⟨?_, screenShareOnPc_pcId pc t, screenShareOnPc_connState pc t, ?_, ?_⟩
    · rw [hp2]
      exact List.mem_map_of_mem _ hmem
    · intro hany
      rcases replaceFirstVideoTrack_spec pc.senders t hany with ⟨pre, s, post, heq, hpre, hs, hrep⟩
      refine ⟨pre, s, post, heq, hpre, hs, ?_⟩
      rw [← hrep]
      unfold screenShareOnPc
      rw [if_pos hany]
    · intro hfalse
      unfold screenShareOnPc
      rw [if_neg (by rw [hfalse]; exact Bool.false_ne_true)]
      rfl

/-- C8 witness: the theorem at a concrete session with one video-carrying
link and one audio-only link. -/
theorem c8_screen_share_replaces_witness :
    ∃ m2, startScreenShare c8M (Except.ok c8Screen) = Except.ok m2 ∧
      keysOf m2.peers = keysOf c8M.peers ∧
      ∀ p pc, (p, pc) ∈ c8M.peers →
        (p, screenShareOnPc pc { kind := "video", source := "screen" }) ∈ m2.peers ∧
        (screenShareOnPc pc { kind := "video", source := "screen" }).pcId = pc.pcId ∧
        (screenShareOnPc pc { kind := "video", source := "screen" }).connState
          = pc.connState ∧
        (pc.senders.any isVideoSender = true →
          ∃ pre s post, pc.senders = pre ++ s :: post ∧
            (∀ x ∈ pre, isVideoSender x = false) ∧ isVideoSender s = true ∧
            (screenShareOnPc pc { kind := "video", source := "screen" }).senders
              = pre ++ ({ s with track := some { kind := "video", source := "screen" } } :: post)) ∧
        (pc.senders.any isVideoSender = false →
          (screenShareOnPc pc { kind := "video", source := "screen" }).senders
            = pc.senders ++ [{ senderId := pc.nextSenderId,
                               track := some { kind := "video", source := "screen" } }]) :=
  c8_screen_share_replaces c8M c8Screen { kind := "video", source := "screen" } (by decide)
